import Mathlib

/-!
Verification of the installation orchestration core of the newrelic-cli
guided-install subsystem.

The definitions below embed, in order:
  * the recipe data model and the flags of the guided installer
    (from src/internal/install/recipe_installer_guided.go),
  * the scoped NerdStorage status reporter and the entity-GUID set of the
    install status aggregate (the implementation is not part of src/; it is
    modelled from the spec, with the unit tests of
    src/internal/install/execution/nerdstorage_status_reporter_unit_test.go
    fixing the observable counters),
  * the polling recipe validator (modelled from the spec, section 4.1),
  * the guided-install orchestrator function of
    src/internal/install/recipe_installer_guided.go, translated match by
    match, with the collaborators it calls that are not under src/
    (fetch-and-report, execute-and-validate, installRecipes, the
    ShouldInstall* predicates) modelled from the spec.
-/

deriving instance DecidableEq for Except

namespace NewRelicInstall

/-- Recipe data: the fields of types.OpenInstallationRecipe that the
installer code under verification reads.  The target-type classifier and
the APM classifier are the boolean results of the HasApplicationTargetType
and IsApm methods of the types package (not under src/; modelled from the
spec, which calls them the "target-type classifier" and the
"APM-classified" predicate). -/
structure OpenInstallationRecipe where
  name : String
  displayName : String
  hasApplicationTargetType : Bool
  isApm : Bool
deriving DecidableEq, Repr

/-- Name of the mandatory infra agent recipe (types.InfraAgentRecipeName;
the constant is not under src/, its value appears in the scenario builder
of the unit-test file). -/
def infraAgentRecipeName : String := "infrastructure-agent-installer"

/-- Name of the logging recipe (types.LoggingRecipeName; value as it
appears in the scenario builder of the unit-test file). -/
def loggingRecipeName : String := "logs-integration"

/-- Errors of the install run.  The distinguished interrupt is
types.ErrInterrupt; every other error is carried as a message, the way the
Go code carries generic error values. -/
inductive InstallErr where
  | interrupt
  | other (msg : String)
deriving DecidableEq, Repr

/-- Message of an error, used where the Go code wraps an error into a new
one with fmt.Errorf. -/
def InstallErr.message : InstallErr → String
  | .interrupt => "interrupt"
  | .other m => m

/-! ## Scoped status reporter (claims C1, C6, C9)

The NerdStorage status reporter and the InstallStatus aggregate are not
under src/ — only their unit tests are.  They are modelled from the spec
(sections 4.2 and 4.3); the mock client of the unit tests fixes the
observable surface: one injectable error and one call counter per scope. -/

/-- Modelled from the spec: the remote NerdStorage document client used by
the scoped status reporter.  Each scope has an injectable write error and
a write-call counter, exactly as in MockNerdStorageClient of the unit
tests. -/
structure NerdStorageClient where
  writeDocumentWithUserScopeErr : Option String
  writeDocumentWithEntityScopeErr : Option String
  writeDocumentWithUserScopeCallCount : Nat
  writeDocumentWithEntityScopeCallCount : Nat
deriving DecidableEq, Repr

/-- Modelled from the spec: a user-scoped document write.  It always
counts as one user-scope call and fails exactly when the injected
user-scope error is present. -/
def writeDocumentWithUserScope (c : NerdStorageClient) :
    NerdStorageClient × Option String :=
  ({ c with writeDocumentWithUserScopeCallCount :=
      c.writeDocumentWithUserScopeCallCount + 1 },
   c.writeDocumentWithUserScopeErr)

/-- Modelled from the spec: an entity-scoped document write for one entity
GUID.  It always counts as one entity-scope call and fails exactly when
the injected entity-scope error is present. -/
def writeDocumentWithEntityScope (c : NerdStorageClient) (_guid : String) :
    NerdStorageClient × Option String :=
  ({ c with writeDocumentWithEntityScopeCallCount :=
      c.writeDocumentWithEntityScopeCallCount + 1 },
   c.writeDocumentWithEntityScopeErr)

/-- The part of the InstallStatus aggregate the scoped reporter reads: the
set of entity GUIDs known so far, in discovery order. -/
structure InstallStatus where
  entityGUIDs : List String
deriving DecidableEq, Repr

/-- Modelled from the spec: withEntityGUID records a newly discovered
entity identifier; a GUID already present is not re-added. -/
def withEntityGUID (s : InstallStatus) (guid : String) : InstallStatus :=
  if guid ∈ s.entityGUIDs then s
  else { s with entityGUIDs := s.entityGUIDs ++ [guid] }

/-- Modelled from the spec: the entity-scope fan-out — one entity-scoped
write per known GUID, every write attempted, the first failure kept. -/
def writeEntityScopeAll (c : NerdStorageClient) :
    List String → NerdStorageClient × Option String
  | [] => (c, none)
  | g :: gs =>
    let p1 := writeDocumentWithEntityScope c g
    let p2 := writeEntityScopeAll p1.1 gs
    (p2.1, p1.2 <|> p2.2)

/-- Modelled from the spec (section 4.3): the body shared by the
RecipeInstalled and RecipeFailed reporter methods — one user-scoped write
always, one entity-scoped write per known entity GUID, both attempted
independently; the call reports failure when either scope failed. -/
def writeStatus (c : NerdStorageClient) (s : InstallStatus) :
    NerdStorageClient × Option String :=
  let pu := writeDocumentWithUserScope c
  let pe := writeEntityScopeAll pu.1 s.entityGUIDs
  (pe.1, pu.2 <|> pe.2)

/-- Modelled from the spec: NerdStorageStatusReporter.RecipeInstalled. -/
def recipeInstalledReport (c : NerdStorageClient) (s : InstallStatus) :
    NerdStorageClient × Option String :=
  writeStatus c s

/-- Modelled from the spec: NerdStorageStatusReporter.RecipeFailed. -/
def recipeFailedReport (c : NerdStorageClient) (s : InstallStatus) :
    NerdStorageClient × Option String :=
  writeStatus c s

/-- One RecipeInstalled or RecipeFailed call, together with the install
status (hence the known entity GUIDs) at call time. -/
inductive ReportCall where
  | installed (s : InstallStatus)
  | failed (s : InstallStatus)
deriving DecidableEq, Repr

/-- The install status a report call sees. -/
def ReportCall.status : ReportCall → InstallStatus
  | .installed s => s
  | .failed s => s

/-- Run a sequence of RecipeInstalled/RecipeFailed calls against the
client, keeping only the client (the counters). -/
def runReportCalls (c : NerdStorageClient) : List ReportCall → NerdStorageClient
  | [] => c
  | .installed s :: rest => runReportCalls (recipeInstalledReport c s).1 rest
  | .failed s :: rest => runReportCalls (recipeFailedReport c s).1 rest

lemma writeEntityScopeAll_counts (c : NerdStorageClient) (gs : List String) :
    (writeEntityScopeAll c gs).1.writeDocumentWithUserScopeCallCount
        = c.writeDocumentWithUserScopeCallCount ∧
    (writeEntityScopeAll c gs).1.writeDocumentWithEntityScopeCallCount
        = c.writeDocumentWithEntityScopeCallCount + gs.length := by
  induction gs generalizing c with
  | nil => simp [writeEntityScopeAll]
  | cons g gs ih =>
    simp only [writeEntityScopeAll, writeDocumentWithEntityScope]
    refine ⟨(ih _).1, ?_⟩
    rw [(ih _).2]
    simp
    omega

lemma writeEntityScopeAll_errs (c : NerdStorageClient) (gs : List String) :
    (writeEntityScopeAll c gs).1.writeDocumentWithUserScopeErr
        = c.writeDocumentWithUserScopeErr ∧
    (writeEntityScopeAll c gs).1.writeDocumentWithEntityScopeErr
        = c.writeDocumentWithEntityScopeErr := by
  induction gs generalizing c with
  | nil => simp [writeEntityScopeAll]
  | cons g gs ih =>
    simpa [writeEntityScopeAll, writeDocumentWithEntityScope] using ih _

lemma writeEntityScopeAll_result (c : NerdStorageClient) (gs : List String) :
    (writeEntityScopeAll c gs).2
        = if gs.isEmpty then none else c.writeDocumentWithEntityScopeErr := by
  induction gs generalizing c with
  | nil => simp [writeEntityScopeAll]
  | cons g gs ih =>
    simp only [writeEntityScopeAll, writeDocumentWithEntityScope, ih, List.isEmpty]
    cases h : c.writeDocumentWithEntityScopeErr <;> cases gs <;> simp [Option.orElse, h]

lemma writeStatus_counts (c : NerdStorageClient) (s : InstallStatus) :
    (writeStatus c s).1.writeDocumentWithUserScopeCallCount
        = c.writeDocumentWithUserScopeCallCount + 1 ∧
    (writeStatus c s).1.writeDocumentWithEntityScopeCallCount
        = c.writeDocumentWithEntityScopeCallCount + s.entityGUIDs.length := by
  simp only [writeStatus]
  constructor
  · rw [(writeEntityScopeAll_counts _ _).1]
    simp [writeDocumentWithUserScope]
  · rw [(writeEntityScopeAll_counts _ _).2]
    simp [writeDocumentWithUserScope]

/-- Claim C1 — for every sequence of RecipeInstalled/RecipeFailed calls on
the scoped status reporter, each call performs exactly one user-scoped
store write, and exactly one entity-scoped store write per entity GUID
known at call time: over the whole sequence the user-scope counter grows
by the number of calls and the entity-scope counter by the sum, over the
calls, of the number of GUIDs known at that call. -/
theorem recipe_reports_write_counts (c : NerdStorageClient)
    (calls : List ReportCall) :
    (runReportCalls c calls).writeDocumentWithUserScopeCallCount
        = c.writeDocumentWithUserScopeCallCount + calls.length ∧
    (runReportCalls c calls).writeDocumentWithEntityScopeCallCount
        = c.writeDocumentWithEntityScopeCallCount
          + (calls.map (fun call => call.status.entityGUIDs.length)).sum := by
  induction calls generalizing c with
  | nil => simp [runReportCalls]
  | cons call rest ih =>
    cases call with
    | installed s =>
      simp only [runReportCalls, recipeInstalledReport]
      refine ⟨?_, ?_⟩
      · rw [(ih _).1, (writeStatus_counts c s).1]
        simp [ReportCall.status]
        omega
      · rw [(ih _).2, (writeStatus_counts c s).2]
        simp [ReportCall.status]
        omega
    | failed s =>
      simp only [runReportCalls, recipeFailedReport]
      refine ⟨?_, ?_⟩
      · rw [(ih _).1, (writeStatus_counts c s).1]
        simp [ReportCall.status]
        omega
      · rw [(ih _).2, (writeStatus_counts c s).2]
        simp [ReportCall.status]
        omega

/-- One RecipeInstalled/RecipeFailed call as a client transition together
with its reported result. -/
def reportCall (c : NerdStorageClient) : ReportCall → NerdStorageClient × Option String
  | .installed s => recipeInstalledReport c s
  | .failed s => recipeFailedReport c s

/-- Claim C6 — for every RecipeInstalled or RecipeFailed call: the call
succeeds exactly when the user-scope write succeeded and every
entity-scope write succeeded (so a user-scope failure is surfaced even
when all entity-scope writes succeed, and an entity-scope failure is
surfaced even when the user-scope write succeeds), and both scopes are
attempted independently: the user-scope counter advances by one and the
entity-scope counter by the number of known GUIDs, regardless of either
error. -/
theorem recipe_report_error_independence (c : NerdStorageClient)
    (call : ReportCall) :
    ((reportCall c call).2 = none ↔
      (c.writeDocumentWithUserScopeErr = none ∧
        (call.status.entityGUIDs = [] ∨
          c.writeDocumentWithEntityScopeErr = none))) ∧
    (reportCall c call).1.writeDocumentWithUserScopeCallCount
        = c.writeDocumentWithUserScopeCallCount + 1 ∧
    (reportCall c call).1.writeDocumentWithEntityScopeCallCount
        = c.writeDocumentWithEntityScopeCallCount
          + call.status.entityGUIDs.length := by
  have hbody : ∀ s : InstallStatus,
      ((writeStatus c s).2 = none ↔
        (c.writeDocumentWithUserScopeErr = none ∧
          (s.entityGUIDs = [] ∨ c.writeDocumentWithEntityScopeErr = none))) := by
    intro s
    simp only [writeStatus, writeDocumentWithUserScope]
    rw [writeEntityScopeAll_result]
    cases hu : c.writeDocumentWithUserScopeErr <;>
      cases hg : s.entityGUIDs <;>
        cases he : c.writeDocumentWithEntityScopeErr <;>
          simp [Option.orElse, hu, hg, he]
  cases call with
  | installed s =>
    exact ⟨hbody s, (writeStatus_counts c s).1, (writeStatus_counts c s).2⟩
  | failed s =>
    exact ⟨hbody s, (writeStatus_counts c s).1, (writeStatus_counts c s).2⟩

/-- Claim C9 — withEntityGUID is idempotent per GUID: registering the same
GUID twice leaves the known-GUID set identical to registering it once, and
therefore every subsequent RecipeInstalled/RecipeFailed call performs the
same number of entity-scope writes. -/
theorem withEntityGUID_idempotent (s : InstallStatus) (g : String)
    (c : NerdStorageClient) :
    withEntityGUID (withEntityGUID s g) g = withEntityGUID s g ∧
    (writeStatus c (withEntityGUID (withEntityGUID s g) g)).1.writeDocumentWithEntityScopeCallCount
        = (writeStatus c (withEntityGUID s g)).1.writeDocumentWithEntityScopeCallCount := by
  have hidem : withEntityGUID (withEntityGUID s g) g = withEntityGUID s g := by
    by_cases h : g ∈ s.entityGUIDs
    · simp [withEntityGUID, h]
    · simp [withEntityGUID, h]
  exact ⟨hidem, by rw [hidem]⟩

/-! ## Polling recipe validator (claims C4, C5)

The PollingRecipeValidator is not under src/ — only the mock NRDB client
of the scenario builder is.  It is modelled from the spec (section 4.1):
a bounded number of attempts against the query backend, one per interval,
interruptible by the shared cancellation signal at each interval boundary;
success when an attempt reports data; exhaustion error distinct from the
query-transport error. -/

/-- Outcome of one query attempt against the telemetry backend: a row with
a non-zero count carrying the entity identifier, a row set with no data,
or a transport/query-layer failure. -/
inductive AttemptOutcome where
  | dataFound (guid : String)
  | noData
  | queryFailure (msg : String)
deriving DecidableEq, Repr

/-- The validator's error taxonomy: exhaustion of the attempt budget,
a query-transport failure, and cancellation. -/
inductive ValidationError where
  | validationExhausted
  | validationQueryFailed
  | validationCanceled
deriving DecidableEq, Repr

/-- Modelled from the spec: the polling loop of the validator.  The
backend is the outcome of each attempt (attempts are numbered from 1);
the cancellation signal is sampled at each interval boundary, before the
attempt.  The first argument is the remaining attempt budget, the second
the number of the next attempt.  On success the validator returns the
entity GUID and the number of attempts performed. -/
def pollAttempts (backend : Nat → AttemptOutcome) (canceled : Nat → Bool) :
    Nat → Nat → Except ValidationError (String × Nat)
  | 0, _ => .error .validationExhausted
  | remaining + 1, k =>
    if canceled k then .error .validationCanceled
    else
      match backend k with
      | .dataFound guid => .ok (guid, k)
      | .noData => pollAttempts backend canceled remaining (k + 1)
      | .queryFailure _ => .error .validationQueryFailed

/-- Modelled from the spec: PollingRecipeValidator.Validate with a
configured maximum attempt count. -/
def pollingValidate (maxAttempts : Nat) (backend : Nat → AttemptOutcome)
    (canceled : Nat → Bool) : Except ValidationError (String × Nat) :=
  pollAttempts backend canceled maxAttempts 1

lemma pollAttempts_success (backend : Nat → AttemptOutcome)
    (canceled : Nat → Bool) (N : Nat) (guid : String) :
    ∀ remaining k, k ≤ N → N < k + remaining →
      (∀ j, k ≤ j → j < N → backend j = .noData) →
      (∀ j, k ≤ j → j ≤ N → canceled j = false) →
      backend N = .dataFound guid →
      pollAttempts backend canceled remaining k = .ok (guid, N) := by
  intro remaining
  induction remaining with
  | zero => intro k hk hlt _ _ _; omega
  | succ remaining ih =>
    intro k hk hlt hno hcf hdata
    simp only [pollAttempts, hcf k le_rfl hk, if_neg]
    by_cases hkN : k = N
    · subst hkN
      simp [hdata]
    · have hklt : k < N := lt_of_le_of_ne hk hkN
      rw [hno k le_rfl hklt]
      exact ih (k + 1) hklt (by omega)
        (fun j hj hj2 => hno j (by omega) hj2)
        (fun j hj hj2 => hcf j (by omega) hj2)
        hdata

lemma pollAttempts_exhausted (backend : Nat → AttemptOutcome)
    (canceled : Nat → Bool) :
    ∀ remaining k,
      (∀ j, k ≤ j → j < k + remaining → backend j = .noData) →
      (∀ j, k ≤ j → j < k + remaining → canceled j = false) →
      pollAttempts backend canceled remaining k = .error .validationExhausted := by
  intro remaining
  induction remaining with
  | zero => intro k _ _; rfl
  | succ remaining ih =>
    intro k hno hcf
    simp only [pollAttempts, hcf k le_rfl (by omega), if_neg]
    rw [hno k le_rfl (by omega)]
    exact ih (k + 1) (fun j hj hj2 => hno j (by omega) (by omega))
      (fun j hj hj2 => hcf j (by omega) (by omega))

lemma pollAttempts_frame (b1 b2 : Nat → AttemptOutcome)
    (c1 c2 : Nat → Bool) :
    ∀ remaining k,
      (∀ j, k ≤ j → j < k + remaining → b1 j = b2 j) →
      (∀ j, k ≤ j → j < k + remaining → c1 j = c2 j) →
      pollAttempts b1 c1 remaining k = pollAttempts b2 c2 remaining k := by
  intro remaining
  induction remaining with
  | zero => intro k _ _; rfl
  | succ remaining ih =>
    intro k hb hc
    simp only [pollAttempts]
    rw [hc k le_rfl (by omega), hb k le_rfl (by omega)]
    cases c2 k with
    | true => simp
    | false =>
      simp only [Bool.false_eq_true, if_neg, if_false]
      cases b2 k with
      | dataFound guid => rfl
      | noData =>
        exact ih (k + 1) (fun j hj hj2 => hb j (by omega) (by omega))
          (fun j hj hj2 => hc j (by omega) (by omega))
      | queryFailure msg => rfl

lemma pollAttempts_canceled (backend : Nat → AttemptOutcome)
    (canceled : Nat → Bool) (J : Nat) :
    ∀ remaining k, k ≤ J → J < k + remaining →
      (∀ j, k ≤ j → j < J → backend j = .noData) →
      (∀ j, k ≤ j → j < J → canceled j = false) →
      canceled J = true →
      pollAttempts backend canceled remaining k = .error .validationCanceled := by
  intro remaining
  induction remaining with
  | zero => intro k hk hlt _ _ _; omega
  | succ remaining ih =>
    intro k hk hlt hno hcf hcj
    by_cases hkJ : k = J
    · subst hkJ
      simp [pollAttempts, hcj]
    · have hklt : k < J := lt_of_le_of_ne hk hkJ
      simp only [pollAttempts, hcf k le_rfl hklt, if_neg]
      rw [hno k le_rfl hklt]
      exact ih (k + 1) hklt (by omega)
        (fun j hj hj2 => hno j (by omega) hj2)
        (fun j hj hj2 => hcf j (by omega) hj2)
        hcj

/-- Claim C4 — with an uncanceled context: a backend that reports no data
on each of the first N-1 attempts and data on attempt N, with
1 ≤ N ≤ maxAttempts, makes the validator succeed after exactly N attempts;
a backend that never reports data within the budget makes it fail with the
exhaustion error (an error distinct from the query-transport error); and
the validator never performs more than maxAttempts attempts — its result
only depends on the backend's outcomes at attempts 1..maxAttempts. -/
theorem pollingValidate_attempts (maxAttempts N : Nat)
    (backend : Nat → AttemptOutcome) (guid : String)
    (h1 : 1 ≤ N) (h2 : N ≤ maxAttempts)
    (hno : ∀ k, 1 ≤ k → k < N → backend k = .noData)
    (hdata : backend N = .dataFound guid) :
    pollingValidate maxAttempts backend (fun _ => false) = .ok (guid, N) ∧
    (∀ b2 : Nat → AttemptOutcome,
      (∀ k, 1 ≤ k → k ≤ maxAttempts → b2 k = .noData) →
      pollingValidate maxAttempts b2 (fun _ => false)
        = .error .validationExhausted) ∧
    (∀ b2 b3 : Nat → AttemptOutcome, ∀ c2 : Nat → Bool,
      (∀ k, 1 ≤ k → k ≤ maxAttempts → b2 k = b3 k) →
      pollingValidate maxAttempts b2 c2 = pollingValidate maxAttempts b3 c2) ∧
    ValidationError.validationExhausted ≠ ValidationError.validationQueryFailed := by
  refine ⟨?_, ?_, ?_, by simp⟩
  · exact pollAttempts_success backend (fun _ => false) N guid maxAttempts 1
      h1 (by omega) (fun j hj hj2 => hno j hj hj2) (fun _ _ _ => rfl) hdata
  · intro b2 hb2
    exact pollAttempts_exhausted b2 (fun _ => false) maxAttempts 1
      (fun j hj hj2 => hb2 j hj (by omega)) (fun _ _ _ => rfl)
  · intro b2 b3 c2 hagree
    exact pollAttempts_frame b2 b3 c2 c2 maxAttempts 1
      (fun j hj hj2 => hagree j hj (by omega)) (fun _ _ _ => rfl)

/-- Witness for claim C4's theorem: maxAttempts 3, data arriving on
attempt 2. -/
theorem pollingValidate_attempts_witness :
    pollingValidate 3
        (fun k => if k = 2 then .dataFound "MjM0NTY" else .noData)
        (fun _ => false) = .ok ("MjM0NTY", 2) ∧
    (∀ b2 : Nat → AttemptOutcome,
      (∀ k, 1 ≤ k → k ≤ 3 → b2 k = .noData) →
      pollingValidate 3 b2 (fun _ => false) = .error .validationExhausted) ∧
    (∀ b2 b3 : Nat → AttemptOutcome, ∀ c2 : Nat → Bool,
      (∀ k, 1 ≤ k → k ≤ 3 → b2 k = b3 k) →
      pollingValidate 3 b2 c2 = pollingValidate 3 b3 c2) ∧
    ValidationError.validationExhausted ≠ ValidationError.validationQueryFailed :=
  pollingValidate_attempts 3 2
    (fun k => if k = 2 then .dataFound "MjM0NTY" else .noData) "MjM0NTY"
    (by omega) (by omega)
    (by intro k hk1 hk2
        have : k = 1 := by omega
        subst this
        rfl)
    rfl

/-- Claim C5 — when the context is canceled at interval boundary J (the
first cancellation) and the backend produced no data before J, the
validator returns the cancellation error — never a success and never the
exhaustion error — and performs no attempt from J on: the result is the
cancellation error for every backend agreeing on attempts before J. -/
theorem pollingValidate_canceled (maxAttempts J : Nat)
    (backend : Nat → AttemptOutcome) (canceled : Nat → Bool)
    (h1 : 1 ≤ J) (h2 : J ≤ maxAttempts)
    (hcj : canceled J = true)
    (hcf : ∀ k, 1 ≤ k → k < J → canceled k = false)
    (hno : ∀ k, 1 ≤ k → k < J → backend k = .noData) :
    pollingValidate maxAttempts backend canceled = .error .validationCanceled ∧
    (∀ b2 : Nat → AttemptOutcome,
      (∀ k, 1 ≤ k → k < J → b2 k = .noData) →
      pollingValidate maxAttempts b2 canceled = .error .validationCanceled) := by
  constructor
  · exact pollAttempts_canceled backend canceled J maxAttempts 1 h1 (by omega)
      (fun j hj hj2 => hno j hj hj2) (fun j hj hj2 => hcf j hj hj2) hcj
  · intro b2 hb2
    exact pollAttempts_canceled b2 canceled J maxAttempts 1 h1 (by omega)
      (fun j hj hj2 => hb2 j hj hj2) (fun j hj hj2 => hcf j hj hj2) hcj

/-- Witness for claim C5's theorem: cancellation arrives at the boundary
before attempt 2 of a 5-attempt budget. -/
theorem pollingValidate_canceled_witness :
    pollingValidate 5 (fun _ => .noData) (fun k => decide (2 ≤ k))
        = .error .validationCanceled ∧
    (∀ b2 : Nat → AttemptOutcome,
      (∀ k, 1 ≤ k → k < 2 → b2 k = .noData) →
      pollingValidate 5 b2 (fun k => decide (2 ≤ k))
        = .error .validationCanceled) :=
  pollingValidate_canceled 5 2 (fun _ => .noData) (fun k => decide (2 ≤ k))
    (by omega) (by omega) (by simp)
    (by intro k hk1 hk2
        have : k = 1 := by omega
        subst this
        simp)
    (fun _ _ _ => rfl)

/-! ## Guided-install orchestrator (claims C2, C3, C7, C8, C10)

The functions below translate src/internal/install/recipe_installer_guided.go.
Go loops over slices with append accumulators become structural recursions
that emit their contributions in the loop's left-to-right order.  The
status events emitted through the InstallStatus aggregate are collected in
an explicit trace. -/

/-- A log-match pattern as returned by the file filterer. -/
structure LogMatch where
  name : String
  file : String
deriving DecidableEq, Repr

/-- Status events emitted to the InstallStatus aggregate during the guided
install. -/
inductive Event where
  | recipeAvailable (r : OpenInstallationRecipe)
  | recipesAvailable (rs : List OpenInstallationRecipe)
  | recipesSelected (rs : List OpenInstallationRecipe)
  | recipeSkipped (r : OpenInstallationRecipe)
  | recipeRecommended (r : OpenInstallationRecipe) (guid : String)
  | recipeInstalling (r : OpenInstallationRecipe)
  | recipeInstalled (r : OpenInstallationRecipe) (guid : String)
  | recipeFailed (r : OpenInstallationRecipe)
deriving DecidableEq, Repr

/-- Command flags of the RecipeInstaller (its InstallerContext) read by
the guided install; SkipLoggingInstall is the one field the run mutates. -/
structure Flags where
  skipInfra : Bool
  skipLoggingInstall : Bool
  skipDiscovery : Bool
  skipIntegrations : Bool
  skipApm : Bool
  assumeYes : Bool
deriving DecidableEq, Repr

/-- The collaborators the guided install drives, as oracles: the recipe
fetcher (by recipe name), the recommendation fetch, the multi-select
prompt, the yes/no prompt, the log-file filterer and the
execute-and-validate result (entity GUID or error) per recipe. -/
structure Env where
  fetchRecipe : String → Except InstallErr OpenInstallationRecipe
  fetchRecommendationsRes : Except InstallErr (List OpenInstallationRecipe)
  multiSelect : List String → Except InstallErr (List String)
  promptYesNo : String → Except InstallErr Bool
  fileFilter : List OpenInstallationRecipe → Except InstallErr (List LogMatch)
  execResult : OpenInstallationRecipe → Except InstallErr String

/-- filterRecommendations: drop the infra and logging recipes from the
recommendation list, since they are handled explicitly elsewhere. -/
def filterRecommendations (recipes : List OpenInstallationRecipe) :
    List OpenInstallationRecipe :=
  recipes.filter (fun r =>
    !(r.name == infraAgentRecipeName || r.name == loggingRecipeName))

/-- fetchRecommendations: fetch the recommended recipes and filter out the
redundant ones; a fetch error is wrapped into a new message. -/
def fetchRecommendations (env : Env) :
    Except InstallErr (List OpenInstallationRecipe) :=
  match env.fetchRecommendationsRes with
  | .error e =>
    .error (.other ("error retrieving recipe recommendations: " ++ e.message))
  | .ok recommendations => .ok (filterRecommendations recommendations)

/-- userAccepts: under assume-yes, accept without prompting; otherwise ask
the yes/no prompter. -/
def userAccepts (env : Env) (fl : Flags) (msg : String) :
    Except InstallErr Bool :=
  if fl.assumeYes then .ok true else env.promptYesNo msg

/-- userAcceptsLogFile: the accept prompt for one log match. -/
def userAcceptsLogFile (env : Env) (fl : Flags) (match_ : LogMatch) :
    Except InstallErr Bool :=
  userAccepts env fl
    ("Files have been found at the following pattern: " ++ match_.file
      ++ " Do you want to watch them?")

/-- recipeInRecipes: membership by recipe name. -/
def recipeInRecipes (recipe : OpenInstallationRecipe)
    (recipes : List OpenInstallationRecipe) : Bool :=
  recipes.any (fun r => recipe.name == r.name)

/-- Inner loop of removeRecipes: one input recipe against every removal
target, appending the recipe once per target whose name differs. -/
def removeRecipesInner (recipe : OpenInstallationRecipe) :
    List OpenInstallationRecipe → List OpenInstallationRecipe
  | [] => []
  | r :: rest =>
    if recipe.name ≠ r.name then recipe :: removeRecipesInner recipe rest
    else removeRecipesInner recipe rest

/-- removeRecipes: the nested filtering loop of the source — for each
input recipe and each removal target, keep the recipe when the names
differ. -/
def removeRecipes (recipes : List OpenInstallationRecipe)
    (remove : List OpenInstallationRecipe) : List OpenInstallationRecipe :=
  match recipes with
  | [] => []
  | recipe :: rest => removeRecipesInner recipe remove ++ removeRecipes rest remove

/-- First loop of filterIntegrations: build the install-candidate list,
silently dropping application-target non-APM recipes, and emitting a
SKIPPED event for recipes excluded by the skip-integrations flag or by the
skip-APM flag on an APM recipe. -/
def filterCandidates (fl : Flags) :
    List OpenInstallationRecipe → List OpenInstallationRecipe × List Event
  | [] => ([], [])
  | r :: rest =>
    let acc := filterCandidates fl rest
    if r.hasApplicationTargetType && !r.isApm then acc
    else if fl.skipIntegrations then (acc.1, .recipeSkipped r :: acc.2)
    else if fl.skipApm && r.isApm then (acc.1, .recipeSkipped r :: acc.2)
    else (r :: acc.1, acc.2)

/-- Name-selection step of filterIntegrations: under assume-yes every
candidate is selected; otherwise, when there is at least one candidate,
the multi-select prompt chooses; with no candidates the selection stays
empty. -/
def selectNames (env : Env) (fl : Flags) (installCandidateNames : List String) :
    Except InstallErr (List String) :=
  if fl.assumeYes then .ok installCandidateNames
  else if installCandidateNames.length > 0 then
    env.multiSelect installCandidateNames
  else .ok []

/-- Selection-matching loop of filterIntegrations: for each selected name,
every recommended integration with that display name is appended. -/
def matchSelected (recommendedIntegrations : List OpenInstallationRecipe) :
    List String → List OpenInstallationRecipe
  | [] => []
  | n :: rest =>
    recommendedIntegrations.filter (fun r => r.displayName == n)
      ++ matchSelected recommendedIntegrations rest

/-- Last loop of filterIntegrations: every install candidate not present
(by name) in the selected set is marked SKIPPED, and when that candidate
is the logging recipe the skip-logging flag is set. -/
def skipUnselected (integrationsForInstall : List OpenInstallationRecipe)
    (fl : Flags) :
    List OpenInstallationRecipe → List Event × Flags
  | [] => ([], fl)
  | r :: rest =>
    if recipeInRecipes r integrationsForInstall then
      skipUnselected integrationsForInstall fl rest
    else
      let fl1 := if r.name == loggingRecipeName then
        { fl with skipLoggingInstall := true } else fl
      let acc := skipUnselected integrationsForInstall fl1 rest
      (.recipeSkipped r :: acc.1, acc.2)

/-- filterIntegrations: candidate filtering, selection prompt, selection
matching and skip-marking of unselected candidates, as in the source. -/
def filterIntegrations (env : Env) (fl : Flags)
    (recommendedIntegrations : List OpenInstallationRecipe) :
    Except InstallErr (List OpenInstallationRecipe) × List Event × Flags :=
  let cand := filterCandidates fl recommendedIntegrations
  let installCandidateNames := cand.1.map (fun r => r.displayName)
  match selectNames env fl installCandidateNames with
  | .error e => (.error e, cand.2, fl)
  | .ok selectedIntegrationNames =>
    let integrationsForInstall :=
      matchSelected recommendedIntegrations selectedIntegrationNames
    let skipStep := skipUnselected integrationsForInstall fl cand.1
    (.ok integrationsForInstall, cand.2 ++ skipStep.1, skipStep.2)

/-- Modelled from the spec: fetchRecipeAndReportAvailable is not under
src/ — fetch a recipe by name and mark it available on success. -/
def fetchRecipeAndReportAvailable (env : Env) (name : String) :
    Except InstallErr OpenInstallationRecipe × List Event :=
  match env.fetchRecipe name with
  | .error e => (.error e, [])
  | .ok r => (.ok r, [.recipeAvailable r])

/-- Modelled from the spec: executeAndValidateWithProgress is not under
src/ — the execution unit of section 4.4: an INSTALLING transition when
execution begins, then the install steps and the validator; on success the
entity GUID is registered and an INSTALLED event emitted; on any failure a
FAILED event is emitted and the error propagated. -/
def executeAndValidateWithProgress (env : Env)
    (r : OpenInstallationRecipe) : Except InstallErr String × List Event :=
  match env.execResult r with
  | .ok guid => (.ok guid, [.recipeInstalling r, .recipeInstalled r guid])
  | .error e => (.error e, [.recipeInstalling r, .recipeFailed r])

/-- Accept loop of installLogging over the filtered log matches. -/
def acceptLogMatches (env : Env) (fl : Flags) :
    List LogMatch → Except InstallErr (List LogMatch)
  | [] => .ok []
  | m :: ms =>
    match userAcceptsLogFile env fl m with
    | .error e => .error e
    | .ok ok =>
      match acceptLogMatches env fl ms with
      | .error e => .error e
      | .ok rest => .ok (if ok then m :: rest else rest)

/-- installLogging: filter the log matches over the recipes slated for
installation, let the user accept them, then execute and validate the
logging recipe.  (The accepted file list is injected into a recipe
variable before execution; the variable map plays no role in the claims
and is not carried.) -/
def installLogging (env : Env) (fl : Flags) (r : OpenInstallationRecipe)
    (recipes : List OpenInstallationRecipe) :
    Except InstallErr Unit × List Event :=
  match env.fileFilter recipes with
  | .error e => (.error e, [])
  | .ok logMatches =>
    match acceptLogMatches env fl logMatches with
    | .error e => (.error e, [])
    | .ok _ =>
      let ex := executeAndValidateWithProgress env r
      (ex.1.map (fun _ => ()), ex.2)

/-- Modelled from the spec: ShouldInstallLogging is not under src/ — the
skip-logging flag causes the logging install phase to be skipped
entirely. -/
def shouldInstallLogging (fl : Flags) : Bool := !fl.skipLoggingInstall

/-- Modelled from the spec: ShouldInstallIntegrations is not under src/ —
the skip-integrations flag causes the integrations install phase to be
skipped. -/
def shouldInstallIntegrations (fl : Flags) : Bool := !fl.skipIntegrations

/-- Modelled from the spec: installRecipes is not under src/ — section 4.4
makes optional recipes best-effort: every recipe is attempted in turn, a
non-interrupt failure is reported and the loop continues, an interrupt
aborts immediately; the loop's error is the interrupt when one occurred,
otherwise the first failure, otherwise none. -/
def installRecipes (env : Env) :
    List OpenInstallationRecipe → Option InstallErr × List Event
  | [] => (none, [])
  | r :: rest =>
    match executeAndValidateWithProgress env r with
    | (.ok _, evs) =>
      let acc := installRecipes env rest
      (acc.1, evs ++ acc.2)
    | (.error .interrupt, evs) => (some .interrupt, evs)
    | (.error e, evs) =>
      let acc := installRecipes env rest
      (some (if acc.1 = some .interrupt then .interrupt else e), evs ++ acc.2)

/-- Tail of guidedInstall after the logging phase: install the selected
integrations when the phase is enabled, swallowing any non-interrupt
failure and propagating an interrupt untouched. -/
def guidedFinish (env : Env) (fl : Flags)
    (selectedIntegrations : List OpenInstallationRecipe)
    (pre : List Event) : Except InstallErr Unit × List Event :=
  if shouldInstallIntegrations fl then
    match installRecipes env selectedIntegrations with
    | (some e, ievs) =>
      (if e = .interrupt then .error .interrupt else .ok (), pre ++ ievs)
    | (none, ievs) => (.ok (), pre ++ ievs)
  else (.ok (), pre)

/-- Tail of guidedInstall from the selection announcement on: announce
the available and selected recipes, strip the logging recipe from the
integrations to install, install the infra agent (aborting on failure),
report recommendations for application-target recipes, install logging
when enabled (aborting on failure), then hand over to the integrations
phase. -/
def guidedPost (env : Env) (fl1 : Flags)
    (infraAgentRecipe loggingRecipe : OpenInstallationRecipe)
    (recommendedIntegrations selectedIntegrations0 : List OpenInstallationRecipe)
    (evsBefore : List Event) : Except InstallErr Unit × List Event :=
  let recipesForInstallation := infraAgentRecipe :: selectedIntegrations0
  let selectedIntegrations := removeRecipes selectedIntegrations0 [loggingRecipe]
  let pre := evsBefore
    ++ [.recipesAvailable selectedIntegrations0,
        .recipesSelected recipesForInstallation]
  match executeAndValidateWithProgress env infraAgentRecipe with
  | (.error e, xevs) => (.error e, pre ++ xevs)
  | (.ok entityGUID, xevs) =>
    let recEvs := recommendedIntegrations.filterMap (fun r =>
      if r.hasApplicationTargetType then
        some (Event.recipeRecommended r entityGUID)
      else none)
    let pre2 := pre ++ xevs ++ recEvs
    if shouldInstallLogging fl1 then
      match installLogging env fl1 loggingRecipe recipesForInstallation with
      | (.error e, levs) => (.error e, pre2 ++ levs)
      | (.ok _, levs) => guidedFinish env fl1 selectedIntegrations (pre2 ++ levs)
    else guidedFinish env fl1 selectedIntegrations pre2

/-- guidedInstall: the orchestrator of the guided workflow, translated
from the source — fetch and report the infra and logging recipes, handle
the skip-infra usage error, collect the recommended integrations, filter
and select them, install the infra agent (aborting on failure), report
recommendations for application-target recipes, install logging when
enabled (aborting on failure), then install the integrations best-effort. -/
def guidedInstall (env : Env) (fl0 : Flags) :
    Except InstallErr Unit × List Event :=
  match fetchRecipeAndReportAvailable env infraAgentRecipeName with
  | (.error e, evs1) => (.error e, evs1)
  | (.ok infraAgentRecipe, evs1) =>
    match fetchRecipeAndReportAvailable env loggingRecipeName with
    | (.error e, evs2) => (.error e, evs1 ++ evs2)
    | (.ok loggingRecipe, evs2) =>
      if fl0.skipInfra then
        (.error (.other "--skipInfra is only applicable to targeted installation. Run newrelic install --help for usage"),
         evs1 ++ evs2)
      else
        let skipLog : List Event × List OpenInstallationRecipe :=
          if fl0.skipLoggingInstall then ([.recipeSkipped loggingRecipe], [])
          else ([], [loggingRecipe])
        match (if fl0.skipDiscovery then
                 (.ok skipLog.2 : Except InstallErr (List OpenInstallationRecipe))
               else
                 match fetchRecommendations env with
                 | .error e => .error e
                 | .ok recommended => .ok (skipLog.2 ++ recommended)) with
        | .error e => (.error e, evs1 ++ evs2 ++ skipLog.1)
        | .ok recommendedIntegrations =>
          match filterIntegrations env fl0 recommendedIntegrations with
          | (.error e, fevs, _) => (.error e, evs1 ++ evs2 ++ skipLog.1 ++ fevs)
          | (.ok selectedIntegrations0, fevs, fl1) =>
            guidedPost env fl1 infraAgentRecipe loggingRecipe
              recommendedIntegrations selectedIntegrations0
              (evs1 ++ evs2 ++ skipLog.1 ++ fevs)

/-! ## removeRecipes (claim C10) -/

lemma removeRecipes_singleton (recipes : List OpenInstallationRecipe)
    (r : OpenInstallationRecipe) :
    removeRecipes recipes [r]
      = recipes.filter (fun q => decide (q.name ≠ r.name)) := by
  induction recipes with
  | nil => rfl
  | cons p rest ih =>
    by_cases h : p.name ≠ r.name
    · simp [removeRecipes, removeRecipesInner, h, List.filter_cons, ih]
    · simp [removeRecipes, removeRecipesInner, h, List.filter_cons, ih]

lemma removeRecipesInner_eq (recipe : OpenInstallationRecipe)
    (remove : List OpenInstallationRecipe) :
    removeRecipesInner recipe remove
      = List.replicate
          (remove.countP (fun t => decide (recipe.name ≠ t.name))) recipe := by
  induction remove with
  | nil => rfl
  | cons r rest ih =>
    by_cases h : recipe.name ≠ r.name
    · simp [removeRecipesInner, h, List.countP_cons, ih, List.replicate_succ]
    · simp [removeRecipesInner, h, List.countP_cons, ih]

/-- Claim C10 — removeRecipes replicates instead of filtering: each input
recipe occurs in the result once per removal target whose name differs
from it; with a single removal target this is exactly the order-preserving
filter dropping the recipes of the removed name, but with several targets
a recipe matching none of them is duplicated once per target. -/
theorem removeRecipes_count (recipes remove : List OpenInstallationRecipe)
    (x r : OpenInstallationRecipe) :
    List.count x (removeRecipes recipes remove)
      = List.count x recipes
        * remove.countP (fun t => decide (x.name ≠ t.name)) ∧
    removeRecipes recipes [r]
      = recipes.filter (fun q => decide (q.name ≠ r.name)) := by
  constructor
  · induction recipes with
    | nil => simp [removeRecipes]
    | cons p rest ih =>
      simp only [removeRecipes, List.count_append, removeRecipesInner_eq,
        List.count_replicate, List.count_cons, ih]
      by_cases hxp : x = p
      · subst hxp
        simp only [beq_self_eq_true, if_true, Nat.succ_mul]
        exact Nat.add_comm _ _
      · have hbeq : (x == p) = false := by simp [hxp]
        have hpx : ¬ p = x := fun h => hxp h.symm
        simp [hbeq, hpx]
  · exact removeRecipes_singleton recipes r

/-! ## filterIntegrations characterizations (claims C7, C8) -/

/-- Keep-predicate of the candidate loop: a recommended integration stays
an install candidate when it is not an application-target non-APM recipe,
the skip-integrations flag is off, and it is not an APM recipe under the
skip-APM flag. -/
def keepsCandidate (fl : Flags) (r : OpenInstallationRecipe) : Bool :=
  !(r.hasApplicationTargetType && !r.isApm)
    && !fl.skipIntegrations && !(fl.skipApm && r.isApm)

/-- Events the candidate loop emits for one recipe: nothing for an
application-target non-APM recipe, one SKIPPED for a recipe excluded by a
skip flag, nothing for a kept candidate. -/
def candidateEvents (fl : Flags) (r : OpenInstallationRecipe) : List Event :=
  if r.hasApplicationTargetType && !r.isApm then []
  else if fl.skipIntegrations then [.recipeSkipped r]
  else if fl.skipApm && r.isApm then [.recipeSkipped r]
  else []

lemma filterCandidates_eq (fl : Flags) (rs : List OpenInstallationRecipe) :
    filterCandidates fl rs
      = (rs.filter (keepsCandidate fl), rs.flatMap (candidateEvents fl)) := by
  induction rs with
  | nil => rfl
  | cons r rest ih =>
    simp only [filterCandidates, ih, List.filter_cons, List.flatMap_cons,
      keepsCandidate, candidateEvents]
    by_cases h1 : (r.hasApplicationTargetType && !r.isApm) = true
    · simp [h1]
    · by_cases h2 : fl.skipIntegrations = true
      · simp [h1, h2]
      · by_cases h3 : (fl.skipApm && r.isApm) = true
        · simp [h1, h2, h3]
        · simp [h1, h2, h3]

lemma candidateEvents_skipped (fl : Flags) (r : OpenInstallationRecipe)
    (ev : Event) (h : ev ∈ candidateEvents fl r) :
    ev = Event.recipeSkipped r := by
  simp only [candidateEvents] at h
  by_cases h1 : (r.hasApplicationTargetType && !r.isApm) = true
  · simp [h1] at h
  · by_cases h2 : fl.skipIntegrations = true
    · simp [h1, h2] at h
      exact h
    · by_cases h3 : (fl.skipApm && r.isApm) = true
      · simp [h1, h2, h3] at h
        exact h
      · simp [h1, h2, h3] at h

lemma skipUnselected_events (sel : List OpenInstallationRecipe) (fl : Flags)
    (rs : List OpenInstallationRecipe) :
    (skipUnselected sel fl rs).1
      = rs.flatMap (fun r =>
          if recipeInRecipes r sel then [] else [Event.recipeSkipped r]) := by
  induction rs generalizing fl with
  | nil => rfl
  | cons r rest ih =>
    simp only [skipUnselected, List.flatMap_cons]
    by_cases h : recipeInRecipes r sel = true
    · simp [h, ih]
    · simp only [Bool.not_eq_true] at h
      simp [h, ih]

lemma skipUnselected_flag (sel : List OpenInstallationRecipe) (fl : Flags)
    (rs : List OpenInstallationRecipe) :
    (skipUnselected sel fl rs).2.skipLoggingInstall
      = (fl.skipLoggingInstall
          || rs.any (fun r =>
              !recipeInRecipes r sel && (r.name == loggingRecipeName))) := by
  induction rs generalizing fl with
  | nil => simp [skipUnselected]
  | cons r rest ih =>
    simp only [skipUnselected, List.any_cons]
    by_cases h : recipeInRecipes r sel = true
    · simp [h, ih]
    · simp only [Bool.not_eq_true] at h
      by_cases hn : (r.name == loggingRecipeName) = true
      · simp [h, hn, ih]
      · simp only [Bool.not_eq_true] at hn
        simp [h, hn, ih]

lemma filterIntegrations_events_onlySkipped (env : Env) (fl : Flags)
    (rs : List OpenInstallationRecipe) (ev : Event)
    (h : ev ∈ (filterIntegrations env fl rs).2.1) :
    ∃ r, ev = Event.recipeSkipped r := by
  simp only [filterIntegrations] at h
  cases hsel : selectNames env fl
      ((filterCandidates fl rs).1.map (fun r => r.displayName)) with
  | error e =>
    rw [hsel] at h
    simp only at h
    rw [filterCandidates_eq] at h
    simp only [List.mem_flatMap] at h
    obtain ⟨r, _, hr⟩ := h
    exact ⟨r, candidateEvents_skipped fl r ev hr⟩
  | ok names =>
    rw [hsel] at h
    simp only [List.mem_append] at h
    rcases h with h | h
    · rw [filterCandidates_eq] at h
      simp only [List.mem_flatMap] at h
      obtain ⟨r, _, hr⟩ := h
      exact ⟨r, candidateEvents_skipped fl r ev hr⟩
    · rw [skipUnselected_events] at h
      simp only [List.mem_flatMap] at h
      obtain ⟨r, _, hr⟩ := h
      by_cases hmem : recipeInRecipes r
          (matchSelected rs names) = true
      · simp [hmem] at hr
      · simp only [Bool.not_eq_true] at hmem
        simp [hmem] at hr
        exact ⟨r, hr⟩

/-- An application-target, non-APM recipe: excluded from the candidates
with no event at all. -/
def appRecipe0 : OpenInstallationRecipe :=
  { name := "app-recipe", displayName := "App Recipe",
    hasApplicationTargetType := true, isApm := false }

/-- A plain host recipe. -/
def plainRecipe0 : OpenInstallationRecipe :=
  { name := "recommended-recipe", displayName := "Recommended recipe",
    hasApplicationTargetType := false, isApm := false }

/-- An environment for concrete runs of the selection filter: nothing is
fetched, the prompt selects nothing, execution fails. -/
def envSel : Env :=
  { fetchRecipe := fun _ => .error (.other "unused"),
    fetchRecommendationsRes := .ok [],
    multiSelect := fun _ => .ok [],
    promptYesNo := fun _ => .ok true,
    fileFilter := fun _ => .ok [],
    execResult := fun _ => .error (.other "unused") }

/-- Flags with every skip directive off and assume-yes on. -/
def flagsYes : Flags :=
  { skipInfra := false, skipLoggingInstall := false, skipDiscovery := false,
    skipIntegrations := false, skipApm := false, assumeYes := true }

/-- Counterexample to claim C7 as stated: the application-scoped non-APM
recipe appRecipe0 is excluded during selection filtering (it is dropped
from the candidate list and absent from the returned selection), yet the
run emits zero SKIPPED events for it — the exclusion is silent, against
the claim that every exclusion emits exactly one SKIPPED event. -/
theorem filterIntegrations_app_scoped_silent :
    (filterCandidates flagsYes [appRecipe0]).1 = [] ∧
    (filterIntegrations envSel flagsYes [appRecipe0]).1 = .ok [] ∧
    (filterIntegrations envSel flagsYes [appRecipe0]).2.1 = [] := by
  refine ⟨rfl, rfl, rfl⟩

/-- Claim C7, amended — in the candidate loop, a recipe excluded by the
skip-all-integrations directive, or an APM-classified recipe excluded by
the skip-APM directive, contributes exactly one SKIPPED event, while an
application-scoped non-APM recipe is dropped silently with no event; and
selection filtering emits only SKIPPED events, so no excluded recipe
receives an INSTALLING or INSTALLED event from it. -/
theorem filterIntegrations_exclusion_events (fl : Flags)
    (rs : List OpenInstallationRecipe) (env : Env) :
    filterCandidates fl rs
      = (rs.filter (keepsCandidate fl), rs.flatMap (candidateEvents fl)) ∧
    (∀ r : OpenInstallationRecipe,
      candidateEvents fl r =
        if r.hasApplicationTargetType && !r.isApm then []
        else if fl.skipIntegrations then [Event.recipeSkipped r]
        else if fl.skipApm && r.isApm then [Event.recipeSkipped r]
        else []) ∧
    (∀ ev ∈ (filterIntegrations env fl rs).2.1,
      ∃ r, ev = Event.recipeSkipped r) := by
  exact ⟨filterCandidates_eq fl rs, fun r => rfl,
    fun ev h => filterIntegrations_events_onlySkipped env fl rs ev h⟩

/-- Flags with only the skip-all-integrations directive set. -/
def flagsSkipAll : Flags :=
  { skipInfra := false, skipLoggingInstall := false, skipDiscovery := false,
    skipIntegrations := true, skipApm := false, assumeYes := true }

/-- Witness for the amended claim C7 theorem: under the
skip-all-integrations directive, plainRecipe0 contributes exactly one
SKIPPED event and the event emitted by filterIntegrations is a SKIPPED
event. -/
theorem filterIntegrations_exclusion_events_witness :
    filterCandidates flagsSkipAll [plainRecipe0]
      = ([], [Event.recipeSkipped plainRecipe0]) ∧
    (∃ r, Event.recipeSkipped plainRecipe0 = Event.recipeSkipped r) := by
  constructor
  · rw [(filterIntegrations_exclusion_events flagsSkipAll [plainRecipe0] envSel).1]
    rfl
  · exact (filterIntegrations_exclusion_events flagsSkipAll [plainRecipe0]
      envSel).2.2 (Event.recipeSkipped plainRecipe0) (by decide)

/-! ## Orchestrator runs (claims C2, C3, C8) -/


lemma installRecipes_installing_mem (env : Env) :
    ∀ (l : List OpenInstallationRecipe) (r : OpenInstallationRecipe),
      Event.recipeInstalling r ∈ (installRecipes env l).2 → r ∈ l := by
  intro l
  induction l with
  | nil =>
    intro r h
    simp [installRecipes] at h
  | cons a rest ih =>
    intro r h
    cases hx : env.execResult a with
    | ok guid =>
      simp only [installRecipes, executeAndValidateWithProgress, hx] at h
      simp at h
      rcases h with h | h
      · subst h
        exact List.mem_cons_self _ _
      · exact List.mem_cons_of_mem a (ih r h)
    | error e =>
      cases e with
      | interrupt =>
        simp only [installRecipes, executeAndValidateWithProgress, hx] at h
        simp at h
        subst h
        exact List.mem_cons_self _ _
      | other msg =>
        simp only [installRecipes, executeAndValidateWithProgress, hx] at h
        simp at h
        rcases h with h | h
        · subst h
          exact List.mem_cons_self _ _
        · exact List.mem_cons_of_mem a (ih r h)

lemma guidedInstall_run_noskip (env : Env) (fl : Flags)
    (ir lr : OpenInstallationRecipe) (recs sel : List OpenInstallationRecipe)
    (fevs : List Event) (fl1 : Flags)
    (h1 : env.fetchRecipe infraAgentRecipeName = .ok ir)
    (h2 : env.fetchRecipe loggingRecipeName = .ok lr)
    (h3 : fl.skipInfra = false)
    (h4 : fl.skipDiscovery = false)
    (hsl : fl.skipLoggingInstall = false)
    (h5 : env.fetchRecommendationsRes = .ok recs)
    (h6 : filterIntegrations env fl (lr :: filterRecommendations recs)
        = (.ok sel, fevs, fl1)) :
    guidedInstall env fl
      = guidedPost env fl1 ir lr (lr :: filterRecommendations recs) sel
          (Event.recipeAvailable ir :: Event.recipeAvailable lr :: fevs) := by
  have hA : fetchRecipeAndReportAvailable env infraAgentRecipeName
      = (.ok ir, [.recipeAvailable ir]) := by
    simp [fetchRecipeAndReportAvailable, h1]
  have hB : fetchRecipeAndReportAvailable env loggingRecipeName
      = (.ok lr, [.recipeAvailable lr]) := by
    simp [fetchRecipeAndReportAvailable, h2]
  have hR : fetchRecommendations env = .ok (filterRecommendations recs) := by
    simp [fetchRecommendations, h5]
  simp only [guidedInstall, hA, hB, h3, h4, hsl, hR]
  simp only [Bool.false_eq_true, if_false, List.singleton_append,
    List.nil_append]
  rw [h6]
  simp

lemma guidedInstall_run_skip (env : Env) (fl : Flags)
    (ir lr : OpenInstallationRecipe) (recs sel : List OpenInstallationRecipe)
    (fevs : List Event) (fl1 : Flags)
    (h1 : env.fetchRecipe infraAgentRecipeName = .ok ir)
    (h2 : env.fetchRecipe loggingRecipeName = .ok lr)
    (h3 : fl.skipInfra = false)
    (h4 : fl.skipDiscovery = false)
    (hsl : fl.skipLoggingInstall = true)
    (h5 : env.fetchRecommendationsRes = .ok recs)
    (h6 : filterIntegrations env fl (filterRecommendations recs)
        = (.ok sel, fevs, fl1)) :
    guidedInstall env fl
      = guidedPost env fl1 ir lr (filterRecommendations recs) sel
          (Event.recipeAvailable ir :: Event.recipeAvailable lr
            :: Event.recipeSkipped lr :: fevs) := by
  have hA : fetchRecipeAndReportAvailable env infraAgentRecipeName
      = (.ok ir, [.recipeAvailable ir]) := by
    simp [fetchRecipeAndReportAvailable, h1]
  have hB : fetchRecipeAndReportAvailable env loggingRecipeName
      = (.ok lr, [.recipeAvailable lr]) := by
    simp [fetchRecipeAndReportAvailable, h2]
  have hR : fetchRecommendations env = .ok (filterRecommendations recs) := by
    simp [fetchRecommendations, h5]
  simp only [guidedInstall, hA, hB, h3, h4, hsl, hR]
  simp only [Bool.false_eq_true, if_false, if_true, List.nil_append]
  rw [h6]
  simp

lemma guidedFinish_installing (env : Env) (fl : Flags)
    (sel : List OpenInstallationRecipe) (pre : List Event)
    (r : OpenInstallationRecipe)
    (h : Event.recipeInstalling r ∈ (guidedFinish env fl sel pre).2) :
    Event.recipeInstalling r ∈ pre ∨ r ∈ sel := by
  by_cases hins : shouldInstallIntegrations fl = true
  · rcases hri : installRecipes env sel with ⟨o, ievs⟩
    rw [guidedFinish, if_pos hins, hri] at h
    have hsub : Event.recipeInstalling r ∈ pre ++ ievs →
        Event.recipeInstalling r ∈ pre ∨ r ∈ sel := by
      intro hm
      rcases List.mem_append.mp hm with hm | hm
      · exact Or.inl hm
      · refine Or.inr (installRecipes_installing_mem env sel r ?_)
        rw [hri]
        exact hm
    cases o with
    | none => exact hsub h
    | some e => exact hsub h
  · rw [guidedFinish, if_neg hins] at h
    exact Or.inl h

lemma recommended_events_no_installing
    (recAll : List OpenInstallationRecipe) (guid : String)
    (r : OpenInstallationRecipe) :
    Event.recipeInstalling r ∉ recAll.filterMap (fun q =>
      if q.hasApplicationTargetType then
        some (Event.recipeRecommended q guid)
      else none) := by
  intro h
  simp only [List.mem_filterMap] at h
  obtain ⟨q, _, hq⟩ := h
  by_cases hb : q.hasApplicationTargetType = true
  · simp [hb] at hq
  · simp only [Bool.not_eq_true] at hb
    simp [hb] at hq

lemma filterIntegrations_fevs_skipped (env : Env) (fl : Flags)
    (args sel : List OpenInstallationRecipe) (fevs : List Event) (fl1 : Flags)
    (h6 : filterIntegrations env fl args = (.ok sel, fevs, fl1)) :
    ∀ ev ∈ fevs, ∃ r0, ev = Event.recipeSkipped r0 := by
  intro ev hev
  have hcongr : (filterIntegrations env fl args).2.1 = fevs :=
    congrArg (fun t => t.2.1) h6
  exact filterIntegrations_events_onlySkipped env fl args ev
    (by rw [hcongr]; exact hev)

/-- Claim C2 — when execution or validation of the mandatory infra-agent
recipe fails, guidedInstall returns that error immediately, and no recipe
other than the infra agent recipe ever receives an INSTALLING event in the
run: in particular no optional integration recipe is attempted. -/
theorem guidedInstall_infra_failure_aborts (env : Env) (fl : Flags)
    (ir lr : OpenInstallationRecipe) (recs sel : List OpenInstallationRecipe)
    (fevs : List Event) (fl1 : Flags) (e : InstallErr)
    (h1 : env.fetchRecipe infraAgentRecipeName = .ok ir)
    (h2 : env.fetchRecipe loggingRecipeName = .ok lr)
    (h3 : fl.skipInfra = false)
    (h4 : fl.skipDiscovery = false)
    (h5 : env.fetchRecommendationsRes = .ok recs)
    (h6 : filterIntegrations env fl
        ((if fl.skipLoggingInstall then [] else [lr])
          ++ filterRecommendations recs) = (.ok sel, fevs, fl1))
    (hexec : env.execResult ir = .error e) :
    (guidedInstall env fl).1 = .error e ∧
    ∀ r, Event.recipeInstalling r ∈ (guidedInstall env fl).2 → r = ir := by
  cases hsl : fl.skipLoggingInstall with
  | false =>
    rw [hsl] at h6
    simp only [Bool.false_eq_true, if_false, List.singleton_append] at h6
    have hfevs := filterIntegrations_fevs_skipped env fl _ sel fevs fl1 h6
    rw [guidedInstall_run_noskip env fl ir lr recs sel fevs fl1
      h1 h2 h3 h4 hsl h5 h6]
    simp only [guidedPost, executeAndValidateWithProgress, hexec]
    refine ⟨by simp, ?_⟩
    intro r hr
    simp at hr
    rcases hr with hr | hr
    · obtain ⟨r0, hr0⟩ := hfevs _ hr
      simp at hr0
    · exact hr
  | true =>
    rw [hsl] at h6
    simp only [if_true, List.nil_append] at h6
    have hfevs := filterIntegrations_fevs_skipped env fl _ sel fevs fl1 h6
    rw [guidedInstall_run_skip env fl ir lr recs sel fevs fl1
      h1 h2 h3 h4 hsl h5 h6]
    simp only [guidedPost, executeAndValidateWithProgress, hexec]
    refine ⟨by simp, ?_⟩
    intro r hr
    simp at hr
    rcases hr with hr | hr
    · obtain ⟨r0, hr0⟩ := hfevs _ hr
      simp at hr0
    · exact hr

/-- The infra agent recipe of the concrete runs. -/
def irW : OpenInstallationRecipe :=
  { name := infraAgentRecipeName, displayName := "Infrastructure Agent",
    hasApplicationTargetType := false, isApm := false }

/-- The logging recipe of the concrete runs. -/
def lrW : OpenInstallationRecipe :=
  { name := loggingRecipeName, displayName := "Logs integration",
    hasApplicationTargetType := false, isApm := false }

/-- An environment whose infra-agent execution fails. -/
def envC2 : Env :=
  { fetchRecipe := fun n =>
      if n == infraAgentRecipeName then .ok irW
      else if n == loggingRecipeName then .ok lrW
      else .error (.other "not found"),
    fetchRecommendationsRes := .ok [plainRecipe0],
    multiSelect := fun _ => .ok [],
    promptYesNo := fun _ => .ok true,
    fileFilter := fun _ => .ok [],
    execResult := fun _ => .error (.other "boom") }

/-- Witness for claim C2's theorem: with the infra-agent execution
failing, the run returns the execution error and only the infra agent
recipe is ever INSTALLING. -/
theorem guidedInstall_infra_failure_aborts_witness :
    (guidedInstall envC2 flagsYes).1 = .error (.other "boom") ∧
    ∀ r, Event.recipeInstalling r ∈ (guidedInstall envC2 flagsYes).2 →
      r = irW :=
  guidedInstall_infra_failure_aborts envC2 flagsYes irW lrW [plainRecipe0]
    [lrW, plainRecipe0] [] flagsYes (.other "boom")
    (by decide) (by decide) (by decide) (by decide) (by decide)
    (by decide) (by decide)

/-- Claim C3 — when the optional-integrations phase is reached and
installRecipes reports an error, guidedInstall returns the interrupt
untouched when the error is the cancellation interrupt, and returns
success (nil) for every other error: optional-recipe failures never fail
the run, cancellation is never downgraded. -/
theorem guidedInstall_optional_failure_swallowed (env : Env) (fl : Flags)
    (ir lr : OpenInstallationRecipe) (recs sel : List OpenInstallationRecipe)
    (fevs : List Event) (fl1 : Flags) (guid : String) (e : InstallErr)
    (ievs : List Event)
    (h1 : env.fetchRecipe infraAgentRecipeName = .ok ir)
    (h2 : env.fetchRecipe loggingRecipeName = .ok lr)
    (h3 : fl.skipInfra = false)
    (h4 : fl.skipDiscovery = false)
    (h5 : env.fetchRecommendationsRes = .ok recs)
    (h6 : filterIntegrations env fl
        ((if fl.skipLoggingInstall then [] else [lr])
          ++ filterRecommendations recs) = (.ok sel, fevs, fl1))
    (hexec : env.execResult ir = .ok guid)
    (hlog : fl1.skipLoggingInstall = true ∨
      ∃ levs, installLogging env fl1 lr (ir :: sel) = (.ok (), levs))
    (hint : fl1.skipIntegrations = false)
    (hinst : installRecipes env (removeRecipes sel [lr]) = (some e, ievs)) :
    (guidedInstall env fl).1
      = if e = .interrupt then .error .interrupt else .ok () := by
  have hpost : ∀ evsBefore recAll,
      (guidedPost env fl1 ir lr recAll sel evsBefore).1
        = if e = .interrupt then .error .interrupt else .ok () := by
    intro evsBefore recAll
    simp only [guidedPost, executeAndValidateWithProgress, hexec]
    by_cases hsl1 : fl1.skipLoggingInstall = true
    · simp only [shouldInstallLogging, hsl1, Bool.not_true,
        Bool.false_eq_true, if_false]
      simp only [guidedFinish, shouldInstallIntegrations, hint,
        Bool.not_false, if_true, hinst]
    · have hsl0 : fl1.skipLoggingInstall = false := by
        cases hq : fl1.skipLoggingInstall
        · rfl
        · exact absurd hq hsl1
      rcases hlog with h | ⟨levs, hlev⟩
      · exact absurd h hsl1
      · simp only [shouldInstallLogging, hsl0, Bool.not_false, if_true, hlev]
        simp only [guidedFinish, shouldInstallIntegrations, hint,
          Bool.not_false, if_true, hinst]
  cases hsl : fl.skipLoggingInstall with
  | false =>
    rw [hsl] at h6
    simp only [Bool.false_eq_true, if_false, List.singleton_append] at h6
    rw [guidedInstall_run_noskip env fl ir lr recs sel fevs fl1
      h1 h2 h3 h4 hsl h5 h6]
    exact hpost _ _
  | true =>
    rw [hsl] at h6
    simp only [if_true, List.nil_append] at h6
    rw [guidedInstall_run_skip env fl ir lr recs sel fevs fl1
      h1 h2 h3 h4 hsl h5 h6]
    exact hpost _ _

/-- Flags of the skip-logging concrete run. -/
def flagsSkipLog : Flags :=
  { skipInfra := false, skipLoggingInstall := true, skipDiscovery := false,
    skipIntegrations := false, skipApm := false, assumeYes := true }

/-- An environment whose infra-agent execution succeeds and whose other
recipe executions fail with a plain (non-interrupt) error. -/
def envC3 : Env :=
  { fetchRecipe := fun n =>
      if n == infraAgentRecipeName then .ok irW
      else if n == loggingRecipeName then .ok lrW
      else .error (.other "not found"),
    fetchRecommendationsRes := .ok [plainRecipe0],
    multiSelect := fun _ => .ok [],
    promptYesNo := fun _ => .ok true,
    fileFilter := fun _ => .ok [],
    execResult := fun r =>
      if r.name == infraAgentRecipeName then .ok "MTIzNDU"
      else .error (.other "boom") }

/-- Witness for claim C3's theorem: the optional recipe fails with a
non-interrupt error and guidedInstall still reports success. -/
theorem guidedInstall_optional_failure_swallowed_witness :
    (guidedInstall envC3 flagsSkipLog).1
      = if InstallErr.other "boom" = .interrupt then .error .interrupt
        else .ok () :=
  guidedInstall_optional_failure_swallowed envC3 flagsSkipLog irW lrW
    [plainRecipe0] [plainRecipe0] [] flagsSkipLog "MTIzNDU"
    (.other "boom")
    [Event.recipeInstalling plainRecipe0, Event.recipeFailed plainRecipe0]
    (by decide) (by decide) (by decide) (by decide) (by decide) (by decide)
    (by decide) (Or.inl (by decide)) (by decide) (by decide)

/-- Claim C8 — every install candidate offered to selection that is not in
the final selected set gets a SKIPPED status event from filterIntegrations,
and when that unselected candidate is the logging recipe the skip-logging
flag is set; with that flag set, the logging install phase is not executed
later in the run — the logging recipe never receives an INSTALLING event. -/
theorem filterIntegrations_unselected_skipped :
    (∀ (env : Env) (fl : Flags) (rs out : List OpenInstallationRecipe)
        (evs : List Event) (flOut : Flags),
      filterIntegrations env fl rs = (.ok out, evs, flOut) →
      ∀ r ∈ (filterCandidates fl rs).1, recipeInRecipes r out = false →
        Event.recipeSkipped r ∈ evs ∧
        (r.name = loggingRecipeName → flOut.skipLoggingInstall = true)) ∧
    (∀ (env : Env) (fl : Flags) (ir lr : OpenInstallationRecipe)
        (recs sel : List OpenInstallationRecipe) (fevs : List Event)
        (fl1 : Flags) (guid : String),
      env.fetchRecipe infraAgentRecipeName = .ok ir →
      env.fetchRecipe loggingRecipeName = .ok lr →
      ir.name = infraAgentRecipeName →
      lr.name = loggingRecipeName →
      fl.skipInfra = false →
      fl.skipDiscovery = false →
      env.fetchRecommendationsRes = .ok recs →
      filterIntegrations env fl
          ((if fl.skipLoggingInstall then [] else [lr])
            ++ filterRecommendations recs) = (.ok sel, fevs, fl1) →
      env.execResult ir = .ok guid →
      fl1.skipLoggingInstall = true →
      Event.recipeInstalling lr ∉ (guidedInstall env fl).2) := by
  constructor
  · intro env fl rs out evs flOut hfi r hr hnot
    simp only [filterIntegrations] at hfi
    cases hsel : selectNames env fl
        ((filterCandidates fl rs).1.map (fun q => q.displayName)) with
    | error e =>
      rw [hsel] at hfi
      simp at hfi
    | ok names =>
      rw [hsel] at hfi
      simp only [Prod.mk.injEq, Except.ok.injEq] at hfi
      obtain ⟨hout, hevs, hfl⟩ := hfi
      constructor
      · rw [← hevs]
        refine List.mem_append_right _ ?_
        rw [skipUnselected_events]
        simp only [List.mem_flatMap]
        refine ⟨r, hr, ?_⟩
        rw [hout]
        simp [hnot]
      · intro hname
        rw [← hfl, skipUnselected_flag]
        have hany : ((filterCandidates fl rs).1.any fun q =>
            !recipeInRecipes q (matchSelected rs names)
              && (q.name == loggingRecipeName)) = true := by
          rw [List.any_eq_true]
          refine ⟨r, hr, ?_⟩
          rw [hout]
          simp [hnot, hname]
        rw [hany, Bool.or_true]
  · intro env fl ir lr recs sel fevs fl1 guid h1 h2 hirname hlrname h3 h4
      h5 h6 hexec hsl1
    have hlr_ne_ir : ¬ lr = ir := by
      intro hq
      have hcontra : infraAgentRecipeName = loggingRecipeName := by
        rw [← hirname, ← hq, hlrname]
      exact absurd hcontra (by decide)
    have hnotrem : lr ∉ removeRecipes sel [lr] := by
      rw [removeRecipes_singleton]
      intro hm
      simp only [List.mem_filter] at hm
      simp at hm
    intro hmem
    cases hsl : fl.skipLoggingInstall with
    | false =>
      rw [hsl] at h6
      simp only [Bool.false_eq_true, if_false, List.singleton_append] at h6
      have hfevs := filterIntegrations_fevs_skipped env fl _ sel fevs fl1 h6
      rw [guidedInstall_run_noskip env fl ir lr recs sel fevs fl1
        h1 h2 h3 h4 hsl h5 h6] at hmem
      simp only [guidedPost, executeAndValidateWithProgress, hexec,
        shouldInstallLogging, hsl1, Bool.not_true, Bool.false_eq_true,
        if_false] at hmem
      have h := guidedFinish_installing env fl1 _ _ lr hmem
      rcases h with h | h
      · simp at h
        rcases h with h | h
        · obtain ⟨r0, hr0⟩ := hfevs _ h
          simp at hr0
        · exact hlr_ne_ir h
      · exact hnotrem h
    | true =>
      rw [hsl] at h6
      simp only [if_true, List.nil_append] at h6
      have hfevs := filterIntegrations_fevs_skipped env fl _ sel fevs fl1 h6
      rw [guidedInstall_run_skip env fl ir lr recs sel fevs fl1
        h1 h2 h3 h4 hsl h5 h6] at hmem
      simp only [guidedPost, executeAndValidateWithProgress, hexec,
        shouldInstallLogging, hsl1, Bool.not_true, Bool.false_eq_true,
        if_false] at hmem
      have h := guidedFinish_installing env fl1 _ _ lr hmem
      rcases h with h | h
      · simp at h
        rcases h with h | h
        · obtain ⟨r0, hr0⟩ := hfevs _ h
          simp at hr0
        · exact hlr_ne_ir h
      · exact hnotrem h

/-- Flags with every directive off and no assume-yes: selection goes
through the multi-select prompt. -/
def flagsPrompt : Flags :=
  { skipInfra := false, skipLoggingInstall := false, skipDiscovery := false,
    skipIntegrations := false, skipApm := false, assumeYes := false }

/-- The flags after a run in which the unselected logging candidate set
the skip-logging flag. -/
def flagsPromptSkipLog : Flags :=
  { skipInfra := false, skipLoggingInstall := true, skipDiscovery := false,
    skipIntegrations := false, skipApm := false, assumeYes := false }

/-- An environment whose prompt selects nothing and whose executions
succeed. -/
def envC8 : Env :=
  { fetchRecipe := fun n =>
      if n == infraAgentRecipeName then .ok irW
      else if n == loggingRecipeName then .ok lrW
      else .error (.other "not found"),
    fetchRecommendationsRes := .ok [],
    multiSelect := fun _ => .ok [],
    promptYesNo := fun _ => .ok true,
    fileFilter := fun _ => .ok [],
    execResult := fun _ => .ok "MTIzNDU" }

/-- Witness for claim C8's theorem: the logging recipe is an unselected
candidate — it receives a SKIPPED event, the skip-logging flag is set, and
in the full run the logging recipe never receives an INSTALLING event. -/
theorem filterIntegrations_unselected_skipped_witness :
    (Event.recipeSkipped lrW ∈ [Event.recipeSkipped lrW] ∧
      (lrW.name = loggingRecipeName →
        flagsPromptSkipLog.skipLoggingInstall = true)) ∧
    Event.recipeInstalling lrW ∉ (guidedInstall envC8 flagsPrompt).2 :=
  ⟨filterIntegrations_unselected_skipped.1 envC8 flagsPrompt [lrW] []
      [Event.recipeSkipped lrW] flagsPromptSkipLog (by decide) lrW
      (by decide) (by decide),
   filterIntegrations_unselected_skipped.2 envC8 flagsPrompt irW lrW [] []
      [Event.recipeSkipped lrW] flagsPromptSkipLog "MTIzNDU"
      (by decide) (by decide) (by decide) (by decide) (by decide)
      (by decide) (by decide) (by decide) (by decide) (by decide)⟩

end NewRelicInstall
